import Mathlib

/-!
# QueueManager (nodequeue-service) — verification of the specification against the code

Shallow embedding of the Go sources of the QueueManager repository:

* `node` package (`Node`, `Entity`, `NodeLog`, `Node.AddLog`, `Node.AddResourceID`),
* `resource` package (`Resource` with its service queue `Nodes` and `WaitingQueue`,
  `AddNode`, `AllocateWaitingNode`, `RemoveNode`, `IsInService`, `IsFull`,
  `GetAvailableCapacity`),
* `queueservice` package (`QueueService` with its `CreateNode`, `MoveNode`,
  `AllocateNode`, `CompleteNode` operations and the `computeNodeMetrics` function).

Modelling decisions:

* Go `time.Time` instants are modelled as `Int` (milliseconds); each mutating
  operation receives the `time.Now()` value as an explicit argument `t`.
* Go maps `map[string]*resource.Resource` / `map[string]*node.Node` are modelled
  as association lists with first-binding lookup (`alookup`) and first-binding
  replace-or-append update (`aset`).
* Go resource queues hold `*node.Node` pointers aliased with the `QueueService`
  node map; the embedding resolves the aliasing by storing node *ids* in the
  queues and keeping all node state in the `QueueService.nodes` map, applying
  the node mutations performed inside `Resource.AddNode` at the call site.
* In-place mutation with early error returns becomes explicit state threading:
  every operation returns `QueueService × Option String` where the first
  component is the state as left by the call (mutated or not) and the second is
  `some msg` exactly when the Go function returns `errors.New(msg)`.
* `uuid.New()` in `CreateNode` becomes an explicit `id` argument; the freshness
  assumption that UUIDs never collide becomes an explicit hypothesis in the
  reachability relation.
* Persistence (`db.Store`) is best-effort and never alters in-memory behaviour
  (errors are logged and swallowed), so it is omitted from the state.
-/

/-- Go struct `node.Entity`: an opaque label. -/
structure Entity where
  Name : String
deriving DecidableEq

/-- Go struct `node.NodeLog`: one append-only lifecycle log entry.
`ResourceID` is the empty string when the Go field is omitted. -/
structure NodeLog where
  Action : String
  ResourceID : String
  Timestamp : Int
deriving DecidableEq

/-- Go struct `node.Node`. `ResourceID` is the current resource assignment,
with the empty string as the "unassigned" sentinel (Go zero value). -/
structure Node where
  ID : String
  Entity : Entity
  ResourceID : String
  Completed : Bool
  CreatedAt : Int
  resourceIDs : List String
  Log : List NodeLog
deriving DecidableEq

/-- Go `node.AddLog`: appends one lifecycle entry with the current time. -/
def Node.AddLog (n : Node) (action resourceID : String) (t : Int) : Node :=
  { n with Log := n.Log ++ [{ Action := action, ResourceID := resourceID, Timestamp := t }] }

/-- Go `node.AddResourceID`: records the resource id in the history list. -/
def Node.AddResourceID (n : Node) (resourceID : String) : Node :=
  { n with resourceIDs := n.resourceIDs ++ [resourceID] }

/-- Go struct `resource.Resource`. `Nodes` is the service queue (consumes
capacity), `WaitingQueue` the unbounded waiting queue; both hold node ids
(the Go code holds `*node.Node` pointers, see the header comment). -/
structure Resource where
  ID : String
  Capacity : Int
  Nodes : List String
  WaitingQueue : List String
deriving DecidableEq

/-- Go `resource.IsInService`: linear scan of the service queue. -/
def Resource.IsInService (r : Resource) (nodeID : String) : Bool :=
  r.Nodes.contains nodeID

/-- Go `resource.IsFull`: `len(r.Nodes) >= r.Capacity`. -/
def Resource.IsFull (r : Resource) : Bool :=
  (r.Nodes.length : Int) ≥ r.Capacity

/-- Go `resource.GetAvailableCapacity`: `r.Capacity - len(r.Nodes)`. -/
def Resource.GetAvailableCapacity (r : Resource) : Int :=
  r.Capacity - (r.Nodes.length : Int)

/-- Go `resource.AddNode`: unconditionally appends the node to the waiting
queue (no capacity check). The node-pointer mutations the Go code performs
here (`n.ResourceID = r.ID`, `n.AddResourceID`) are applied by the caller
`QueueService.MoveNode` on the node map. -/
def Resource.AddNode (r : Resource) (nodeID : String) : Resource :=
  { r with WaitingQueue := r.WaitingQueue ++ [nodeID] }

/-- Go `resource.AllocateWaitingNode`: fails (returning the resource
unchanged and `false`) if the service queue is at capacity or the node is not
in the waiting queue; otherwise removes the first waiting occurrence of the
node and appends it to the service queue. -/
def Resource.AllocateWaitingNode (r : Resource) (nodeID : String) : Resource × Bool :=
  if (r.Nodes.length : Int) ≥ r.Capacity then (r, false)
  else if r.WaitingQueue.contains nodeID then
    ({ r with WaitingQueue := r.WaitingQueue.erase nodeID, Nodes := r.Nodes ++ [nodeID] }, true)
  else (r, false)

/-- Go `resource.RemoveNode`: searches the service queue first, then the
waiting queue, removes the first match and reports whether anything was
removed. Removing an absent id is a no-op. -/
def Resource.RemoveNode (r : Resource) (nodeID : String) : Resource × Bool :=
  if r.Nodes.contains nodeID then ({ r with Nodes := r.Nodes.erase nodeID }, true)
  else if r.WaitingQueue.contains nodeID then
    ({ r with WaitingQueue := r.WaitingQueue.erase nodeID }, true)
  else (r, false)

/-- First-binding lookup in an association list (Go map read). -/
def alookup {α : Type} (m : List (String × α)) (k : String) : Option α :=
  match m with
  | [] => none
  | (k1, v) :: rest => if k1 = k then some v else alookup rest k

/-- First-binding replace-or-append update in an association list (Go map write). -/
def aset {α : Type} (m : List (String × α)) (k : String) (v : α) : List (String × α) :=
  match m with
  | [] => [(k, v)]
  | (k1, v1) :: rest => if k1 = k then (k, v) :: rest else (k1, v1) :: aset rest k v

/-- Go struct `queueservice.QueueService`: the node and resource indexes.
The `db.Store` field and the locks carry no sequential behaviour and are
omitted. -/
structure QueueService where
  resources : List (String × Resource)
  nodes : List (String × Node)
deriving DecidableEq

/-- Go `QueueService.AddResource`: registers a Resource by ID, replacing any
existing entry with the same ID. -/
def QueueService.AddResource (qs : QueueService) (r : Resource) : QueueService :=
  { qs with resources := aset qs.resources r.ID r }

/-- The node literal Go `CreateNode` builds: unassigned, not completed, with
the single initial `created` log entry. -/
def newNode (id entityName : String) (t : Int) : Node :=
  Node.AddLog
    { ID := id, Entity := { Name := entityName }, ResourceID := "", Completed := false,
      CreatedAt := t, resourceIDs := [], Log := [] } "created" "" t

/-- Go `QueueService.CreateNode`: creates an unassigned node with a fresh
uuid (here the explicit `id` argument), an initial `created` log entry, and
registers it. Never fails. -/
def QueueService.CreateNode (qs : QueueService) (id entityName : String) (t : Int) :
    QueueService × Node :=
  ({ qs with nodes := aset qs.nodes id (newNode id entityName t) }, newNode id entityName t)

/-- The "remove from current resource if it exists" block of Go
`QueueService.MoveNode`: if the node is assigned and its current resource is
registered, remove it from that resource's queues; otherwise leave the state
alone. -/
def QueueService.moveRemoveCurrent (qs : QueueService) (nodeID : String) (n : Node) :
    QueueService :=
  if n.ResourceID ≠ "" then
    match alookup qs.resources n.ResourceID with
    | some cur =>
      { qs with resources := aset qs.resources n.ResourceID (cur.RemoveNode nodeID).1 }
    | none => qs
  else qs

/-- The node mutations Go performs on a moved node: `Resource.AddNode` sets
`n.ResourceID = r.ID` and appends `r.ID` to the resource-history list, then
`MoveNode` appends the `moved_to_waiting_queue` log entry tagged with its
`targetResourceID` argument (the same string whenever the resource map is
keyed by resource ids, as `AddResource` guarantees). -/
def Node.moveUpdate (n : Node) (rID targetResourceID : String) (t : Int) : Node :=
  (({ n with ResourceID := rID }).AddResourceID rID).AddLog
    "moved_to_waiting_queue" targetResourceID t

/-- Go `QueueService.MoveNode`: assigns a node to a target resource. Error
checks (in source order): node missing, node completed, target resource
missing. Then the node is removed from its current resource (if assigned and
that resource exists), appended to the target's waiting queue, its
`ResourceID` updated and a `moved_to_waiting_queue` log entry appended.
The inner re-lookup of the target reflects that in Go the removal mutates
the very object the earlier `targetResource` pointer aliases when the target
equals the current resource; its `none` branch is unreachable because `aset`
preserves keys. -/
def QueueService.MoveNode (qs : QueueService) (nodeID targetResourceID : String) (t : Int) :
    QueueService × Option String :=
  match alookup qs.nodes nodeID with
  | none => (qs, some "node not found")
  | some n =>
    if n.Completed then (qs, some "cannot move completed node")
    else
      match alookup qs.resources targetResourceID with
      | none => (qs, some "target resource not found")
      | some _ =>
        match alookup (qs.moveRemoveCurrent nodeID n).resources targetResourceID with
        | some tr =>
          ({ resources :=
               aset (qs.moveRemoveCurrent nodeID n).resources targetResourceID
                 (tr.AddNode nodeID),
             nodes :=
               aset (qs.moveRemoveCurrent nodeID n).nodes nodeID
                 (n.moveUpdate tr.ID targetResourceID t) }, none)
        | none => (qs.moveRemoveCurrent nodeID n, some "target resource not found")

/-- Go `QueueService.AllocateNode`: promotes a node from its resource's
waiting queue into the service queue. Error checks in source order; on
success appends a `moved_to_service_queue` log entry. -/
def QueueService.AllocateNode (qs : QueueService) (nodeID : String) (t : Int) :
    QueueService × Option String :=
  match alookup qs.nodes nodeID with
  | none => (qs, some "node not found")
  | some n =>
    if n.Completed then (qs, some "cannot allocate completed node")
    else if n.ResourceID = "" then (qs, some "node is not assigned to a resource")
    else
      match alookup qs.resources n.ResourceID with
      | none => (qs, some "resource not found")
      | some r =>
        if r.IsInService nodeID then (qs, some "node is already in service queue")
        else if r.IsFull then (qs, some "resource is at full capacity")
        else
          match r.AllocateWaitingNode nodeID with
          | (r1, false) =>
            ({ qs with resources := aset qs.resources n.ResourceID r1 },
             some "node is not in waiting queue")
          | (r1, true) =>
            ({ resources := aset qs.resources n.ResourceID r1,
               nodes :=
                 aset qs.nodes nodeID (n.AddLog "moved_to_service_queue" n.ResourceID t) },
             none)

/-- The "remove from current resource" block of Go
`QueueService.CompleteNode`: remove the node from the resource it is
assigned to, when that resource is registered. -/
def QueueService.completeRemoveCurrent (qs : QueueService) (nodeID rid : String) :
    QueueService :=
  match alookup qs.resources rid with
  | some r => { qs with resources := aset qs.resources rid (r.RemoveNode nodeID).1 }
  | none => qs

/-- The node mutations Go performs on a completed node before any clearing:
`Completed = true` then a `completed` log entry carrying the `ResourceID`
held at that moment. -/
def Node.completeUpdate (n : Node) (t : Int) : Node :=
  ({ n with Completed := true }).AddLog "completed" n.ResourceID t

/-- Go `QueueService.CompleteNode`: marks a node completed, appends a
`completed` log entry carrying the `ResourceID` the node held at that
moment, removes it from its resource's queues (if assigned and the resource
exists) and clears its `ResourceID`. -/
def QueueService.CompleteNode (qs : QueueService) (nodeID : String) (t : Int) :
    QueueService × Option String :=
  match alookup qs.nodes nodeID with
  | none => (qs, some "node not found")
  | some n =>
    if n.Completed then (qs, some "node is already completed")
    else
      if n.ResourceID ≠ "" then
        ({ qs.completeRemoveCurrent nodeID n.ResourceID with
           nodes :=
             aset (qs.completeRemoveCurrent nodeID n.ResourceID).nodes nodeID
               { n.completeUpdate t with ResourceID := "" } }, none)
      else
        ({ qs with nodes := aset qs.nodes nodeID (n.completeUpdate t) }, none)

/-- Initial (startup) states: no nodes, and only statically configured
resources with empty queues. Resource ids are the map keys, are non-empty
(the empty string is the Go "unassigned" sentinel and can never name a
configured resource) and capacities are non-negative (spec data model:
`capacity: non-negative integer`). -/
def QueueService.InitState (qs : QueueService) : Prop :=
  qs.nodes = [] ∧
  ∀ p ∈ qs.resources,
    p.2.ID = p.1 ∧ p.1 ≠ "" ∧ p.2.Nodes = [] ∧ p.2.WaitingQueue = [] ∧ 0 ≤ p.2.Capacity

instance (qs : QueueService) : Decidable qs.InitState := by
  unfold QueueService.InitState
  infer_instance

/-- States reachable from an initial `QueueService` by any sequence of
`CreateNode` (with a fresh uuid), `MoveNode`, `AllocateNode` and
`CompleteNode` calls, successful or failed (a call's resulting state is its
first component either way). -/
inductive Reach : QueueService → Prop
  | init (qs : QueueService) (h : qs.InitState) : Reach qs
  | create (qs : QueueService) (id entityName : String) (t : Int) (h : Reach qs)
      (hfresh : alookup qs.nodes id = none) : Reach (qs.CreateNode id entityName t).1
  | move (qs : QueueService) (nodeID targetResourceID : String) (t : Int) (h : Reach qs) :
      Reach (qs.MoveNode nodeID targetResourceID t).1
  | alloc (qs : QueueService) (nodeID : String) (t : Int) (h : Reach qs) :
      Reach (qs.AllocateNode nodeID t).1
  | complete (qs : QueueService) (nodeID : String) (t : Int) (h : Reach qs) :
      Reach (qs.CompleteNode nodeID t).1

/-! ## Metrics engine (`queueservice/metrics.go`) -/

/-- Go struct `queueservice.WaitingSegment`. With instants in integer
milliseconds, `DurationMS` (Go `d.Milliseconds()`) is `EndTS - StartTS`
floored at zero. Go zero-initializes `EndTS`/`DurationMS` when the segment
is opened. -/
structure WaitingSegment where
  ResourceID : String
  StartTS : Int
  EndTS : Int
  DurationMS : Int
deriving DecidableEq

/-- Go struct `queueservice.NodeMetrics`. -/
structure NodeMetrics where
  ID : String
  EntityName : String
  CreatedAt : Int
  Completed : Bool
  TotalTimeInSystemMS : Int
  WaitingSegments : List WaitingSegment
deriving DecidableEq

/-- Go struct `queueservice.nodeEvent`. -/
structure nodeEvent where
  Action : String
  ResourceID : String
  TS : Int
deriving DecidableEq

/-- Go struct `queueservice.nodeSnapshot`. -/
structure nodeSnapshot where
  ID : String
  Entity : String
  CreatedAt : Int
  Completed : Bool
deriving DecidableEq

/-- Loop state of `computeNodeMetrics`: the segments slice, the index of the
currently open segment (`openIdx`, Go `-1` becomes `none`) and the recorded
completion time. -/
structure MetricsAcc where
  segments : List WaitingSegment
  openIdx : Option Nat
  completedTS : Option Int
deriving DecidableEq

/-- Go closure `closeOpen` inside `computeNodeMetrics`: closes the currently
open waiting segment at `endTS`, flooring the duration at zero. The
`List.get?` miss branch is unreachable (the open index always points into
the slice). -/
def closeOpen (acc : MetricsAcc) (endTS : Int) : MetricsAcc :=
  match acc.openIdx with
  | none => acc
  | some i =>
    match acc.segments.get? i with
    | none => { acc with openIdx := none }
    | some seg =>
      let d := endTS - seg.StartTS
      let d1 := if d < 0 then 0 else d
      { acc with
        segments := acc.segments.set i { seg with EndTS := endTS, DurationMS := d1 },
        openIdx := none }

/-- One iteration of the event loop of `computeNodeMetrics` (the Go
`switch ev.Action`): `moved_to_waiting_queue` closes any open segment and
opens a new one; `moved_to_service_queue` closes the open segment only when
its resource matches; `completed` records the completion time and closes any
open segment; any other action is ignored. -/
def processEvent (acc : MetricsAcc) (ev : nodeEvent) : MetricsAcc :=
  if ev.Action = "moved_to_waiting_queue" then
    let acc1 := closeOpen acc ev.TS
    let segments :=
      acc1.segments ++ [{ ResourceID := ev.ResourceID, StartTS := ev.TS, EndTS := 0, DurationMS := 0 }]
    { acc1 with segments := segments, openIdx := some (segments.length - 1) }
  else if ev.Action = "moved_to_service_queue" then
    match acc.openIdx with
    | none => acc
    | some i =>
      match acc.segments.get? i with
      | none => acc
      | some seg => if seg.ResourceID = ev.ResourceID then closeOpen acc ev.TS else acc
  else if ev.Action = "completed" then
    closeOpen { acc with completedTS := some ev.TS } ev.TS
  else acc

/-- Stable insertion into a list already stably sorted ascending by `key`:
the element goes before the first strictly greater key, after all earlier
elements with an equal key. -/
def insertByKey {α : Type} (key : α → Int) (e : α) : List α → List α
  | [] => [e]
  | x :: xs => if key x < key e then x :: insertByKey key e xs else e :: x :: xs

/-- Stable sort ascending by `key` (insertion sort): the embedding of Go's
`sort.SliceStable(events, func(i, j) { less by timestamp })`, which sorts
ascending by timestamp keeping the original relative order of ties. -/
def stableSortByKey {α : Type} (key : α → Int) (l : List α) : List α :=
  l.foldr (insertByKey key) []

/-- Go `computeNodeMetrics`: stable-sorts the events by timestamp, folds the
event loop, closes any still-open segment at `now`, and computes the total
time in system (completion time if completed else `now`, minus `CreatedAt`,
floored at zero). -/
def computeNodeMetrics (now : Int) (n : nodeSnapshot) (events : List nodeEvent) : NodeMetrics :=
  let sorted := stableSortByKey (fun e => e.TS) events
  let acc0 : MetricsAcc := { segments := [], openIdx := none, completedTS := none }
  let acc1 := sorted.foldl processEvent acc0
  let acc2 := closeOpen acc1 now
  let total0 :=
    match acc2.completedTS with
    | some ts => ts - n.CreatedAt
    | none => now - n.CreatedAt
  let total := if total0 < 0 then 0 else total0
  { ID := n.ID, EntityName := n.Entity, CreatedAt := n.CreatedAt, Completed := n.Completed,
    TotalTimeInSystemMS := total, WaitingSegments := acc2.segments }

/-! ## Restore/reconciliation (spec-modelled)

The repository's test `TestRestoreFromStore_RebuildsQueuesAndOrder` and the
`db.Store` interface (`ListNodes`, `ListLatestNodeStates`) are under `src/`,
but the body of `QueueService.RestoreFromStore` itself is not. -/

/-- Go struct `db.PersistedNode` (`db/store.go`). -/
structure PersistedNode where
  NodeID : String
  EntityName : String
  ResourceID : Option String
  Completed : Bool
  CreatedAt : Int
deriving DecidableEq

/-- Go type `db.QueueKind` (`db/store.go`). -/
inductive QueueKind where
  | waiting
  | service
deriving DecidableEq

/-- Go struct `db.NodeState` (`db/store.go`): the most recent recorded queue
kind for a node and the timestamp of that transition. -/
structure NodeState where
  Queue : QueueKind
  TS : Int
deriving DecidableEq

/-- Modelled from the spec: the ordering key assigned to a persisted node by
the restore procedure (`RestoreFromStore`, absent from `src/`) — "for each
persisted node lacking an explicit queue-kind entry, default its kind to
`waiting` and its ordering key to its creation time; nodes with an explicit
entry use the recorded kind and transition timestamp as ordering key". -/
def restoreKindAndKey (states : List (String × NodeState)) (pn : PersistedNode) :
    QueueKind × Int :=
  match alookup states pn.NodeID with
  | some st => (st.Queue, st.TS)
  | none => (QueueKind.waiting, pn.CreatedAt)

/-- Modelled from the spec: the waiting queue that `RestoreFromStore`
(absent from `src/`) rebuilds for resource `rid` — the persisted nodes
assigned to `rid` whose (possibly defaulted) kind is `waiting`,
stable-sorted ascending by their ordering key. -/
def restoredWaiting (states : List (String × NodeState)) (nodes : List PersistedNode)
    (rid : String) : List String :=
  let group := nodes.filter (fun pn =>
    pn.ResourceID = some rid ∧ (restoreKindAndKey states pn).1 = QueueKind.waiting)
  (stableSortByKey (fun pn => (restoreKindAndKey states pn).2) group).map (fun pn => pn.NodeID)

/-- Modelled from the spec: the service queue that `RestoreFromStore`
(absent from `src/`) rebuilds for resource `rid`, bypassing capacity checks. -/
def restoredService (states : List (String × NodeState)) (nodes : List PersistedNode)
    (rid : String) : List String :=
  let group := nodes.filter (fun pn =>
    pn.ResourceID = some rid ∧ (restoreKindAndKey states pn).1 = QueueKind.service)
  (stableSortByKey (fun pn => (restoreKindAndKey states pn).2) group).map (fun pn => pn.NodeID)

/-! ## Concrete states used by scenario claims and witnesses -/

/-- A configured resource of capacity 1. -/
def rW : Resource := { ID := "X", Capacity := 1, Nodes := [], WaitingQueue := [] }

/-- Startup state: one configured resource, no nodes. -/
def qsW0 : QueueService := { resources := [("X", rW)], nodes := [] }

def qsW1 : QueueService := (qsW0.CreateNode "a" "e1" 1).1

def qsW2 : QueueService := (qsW1.MoveNode "a" "X" 2).1

def qsW3 : QueueService := (qsW2.AllocateNode "a" 3).1

def qsW4 : QueueService := (qsW3.CompleteNode "a" 4).1

/-- The resource `X` as it stands in `qsW3` (node `a` allocated). -/
def rWfull : Resource := { ID := "X", Capacity := 1, Nodes := ["a"], WaitingQueue := [] }

/-- The node `a` as it stands in `qsW4` (completed at time 4 while assigned
to `X`). -/
def nCompletedW : Node :=
  { ID := "a", Entity := { Name := "e1" }, ResourceID := "", Completed := true, CreatedAt := 1,
    resourceIDs := ["X"],
    Log := [ { Action := "created", ResourceID := "", Timestamp := 1 },
             { Action := "moved_to_waiting_queue", ResourceID := "X", Timestamp := 2 },
             { Action := "moved_to_service_queue", ResourceID := "X", Timestamp := 3 },
             { Action := "completed", ResourceID := "X", Timestamp := 4 } ] }

/-- State with two distinct nodes `a`, `b` waiting on the capacity-1
resource `X` (built by a legal run). -/
def qsS1 : QueueService :=
  ((((qsW0.CreateNode "a" "e1" 1).1.CreateNode "b" "e2" 2).1.MoveNode "a" "X" 3).1.MoveNode
    "b" "X" 4).1

/-- `qsS1` after the first (successful) allocation of `a`. -/
def qsS2 : QueueService := (qsS1.AllocateNode "a" 5).1

/-- Resource `X` as it stands in `qsS2`: `a` in service, `b` waiting. -/
def rSfull : Resource := { ID := "X", Capacity := 1, Nodes := ["a"], WaitingQueue := ["b"] }

/-- Persisted node `A`: assigned to `X`, explicit waiting state at 20s. -/
def pnA : PersistedNode :=
  { NodeID := "A", EntityName := "e1", ResourceID := some "X", Completed := false,
    CreatedAt := 60000 }

/-- Persisted node `B`: assigned to `X`, explicit waiting state at 10s. -/
def pnB : PersistedNode :=
  { NodeID := "B", EntityName := "e2", ResourceID := some "X", Completed := false,
    CreatedAt := 120000 }

/-- Persisted node `C`: assigned to `X`, no queue-state entry, created at
5 min. -/
def pnC : PersistedNode :=
  { NodeID := "C", EntityName := "e3", ResourceID := some "X", Completed := false,
    CreatedAt := 300000 }

/-- The latest-state map of the restore scenario: `A` waiting at 20s (20000
ms), `B` waiting at 10s (10000 ms), nothing for `C`. -/
def restoreStates : List (String × NodeState) :=
  [("A", { Queue := QueueKind.waiting, TS := 20000 }),
   ("B", { Queue := QueueKind.waiting, TS := 10000 })]

/-- A resource over capacity (legal after a restore with shrunk
configuration): capacity 1, two nodes in service. -/
def rOver : Resource := { ID := "X", Capacity := 1, Nodes := ["a", "b"], WaitingQueue := [] }

/-- Total number of occurrences of a node id across both queues of a resource. -/
def Resource.nodeCount (r : Resource) (nid : String) : Nat :=
  r.Nodes.count nid + r.WaitingQueue.count nid

/-- A node id occurs in one of the two queues of a resource. -/
def Resource.HasNode (r : Resource) (nid : String) : Prop :=
  nid ∈ r.Nodes ∨ nid ∈ r.WaitingQueue

/-- The invariant maintained by every reachable `QueueService` state:
resource map keys are the resource ids and are non-empty; every service
queue respects capacity; every node id occurs at most once across the two
queues of a resource; a queued node id is a registered, non-completed node
assigned to exactly that resource; and completed nodes are unassigned. -/
structure QSInv (qs : QueueService) : Prop where
  resID : ∀ rid r, alookup qs.resources rid = some r → r.ID = rid
  ridNE : ∀ rid r, alookup qs.resources rid = some r → rid ≠ ""
  capOK : ∀ rid r, alookup qs.resources rid = some r → (r.Nodes.length : Int) ≤ r.Capacity
  once : ∀ rid r nid, alookup qs.resources rid = some r → r.nodeCount nid ≤ 1
  inQ : ∀ rid r nid, alookup qs.resources rid = some r → r.HasNode nid →
    ∃ n, alookup qs.nodes nid = some n ∧ n.ResourceID = rid ∧ n.Completed = false
  compClear : ∀ nid n, alookup qs.nodes nid = some n → n.Completed = true → n.ResourceID = ""

/-! ## Association-list lemmas -/

theorem alookup_aset_self {α : Type} (m : List (String × α)) (k : String) (v : α) :
    alookup (aset m k v) k = some v := by
  induction m with
  | nil => simp [aset, alookup]
  | cons p rest ih =>
    obtain ⟨k1, v1⟩ := p
    by_cases h : k1 = k
    · simp [aset, h, alookup]
    · simp [aset, h, alookup, ih]

theorem alookup_aset_ne {α : Type} (m : List (String × α)) (k k2 : String) (v : α)
    (h : k2 ≠ k) : alookup (aset m k v) k2 = alookup m k2 := by
  induction m with
  | nil =>
    have hne : ¬ (k = k2) := fun h2 => h h2.symm
    simp [aset, alookup, hne]
  | cons p rest ih =>
    obtain ⟨k1, v1⟩ := p
    by_cases h1 : k1 = k
    · subst h1
      have hne : ¬ (k1 = k2) := fun h2 => h h2.symm
      simp [aset, alookup, hne]
    · simp [aset, alookup, h1, ih]

theorem aset_eq_of_alookup {α : Type} (m : List (String × α)) (k : String) (v : α)
    (h : alookup m k = some v) : aset m k v = m := by
  induction m with
  | nil => simp [alookup] at h
  | cons p rest ih =>
    obtain ⟨k1, v1⟩ := p
    by_cases h1 : k1 = k
    · subst h1
      simp [alookup] at h
      simp [aset, h]
    · simp [alookup, h1] at h
      simp [aset, h1, ih h]

theorem alookup_mem {α : Type} (m : List (String × α)) (k : String) (v : α)
    (h : alookup m k = some v) : (k, v) ∈ m := by
  induction m with
  | nil => simp [alookup] at h
  | cons p rest ih =>
    obtain ⟨k1, v1⟩ := p
    by_cases h1 : k1 = k
    · subst h1
      simp [alookup] at h
      simp [h]
    · simp [alookup, h1] at h
      simp [ih h]

/-! ## Resource-operation lemmas -/

theorem count_erase_le (x y : String) (l : List String) :
    (l.erase y).count x ≤ l.count x := by
  by_cases h : x = y
  · subst h
    rw [List.count_erase_self]
    omega
  · rw [List.count_erase_of_ne h]

theorem RemoveNode_ID (r : Resource) (nid : String) : (r.RemoveNode nid).1.ID = r.ID := by
  unfold Resource.RemoveNode
  split <;> try split
  all_goals rfl

theorem RemoveNode_Capacity (r : Resource) (nid : String) :
    (r.RemoveNode nid).1.Capacity = r.Capacity := by
  unfold Resource.RemoveNode
  split <;> try split
  all_goals rfl

theorem RemoveNode_length_le (r : Resource) (nid : String) :
    (r.RemoveNode nid).1.Nodes.length ≤ r.Nodes.length := by
  unfold Resource.RemoveNode
  split
  · exact (List.erase_sublist _ _).length_le
  · split <;> simp

theorem RemoveNode_count_le (r : Resource) (nid x : String) :
    (r.RemoveNode nid).1.nodeCount x ≤ r.nodeCount x := by
  unfold Resource.RemoveNode Resource.nodeCount
  split
  · have := count_erase_le x nid r.Nodes
    simp only
    omega
  · split
    · have := count_erase_le x nid r.WaitingQueue
      simp only
      omega
    · simp

theorem RemoveNode_mem (r : Resource) (nid x : String)
    (h : (r.RemoveNode nid).1.HasNode x) : r.HasNode x := by
  unfold Resource.RemoveNode at h
  unfold Resource.HasNode at h ⊢
  split at h
  · rcases h with h | h
    · exact Or.inl (List.mem_of_mem_erase h)
    · exact Or.inr h
  · split at h
    · rcases h with h | h
      · exact Or.inl h
      · exact Or.inr (List.mem_of_mem_erase h)
    · exact h

theorem RemoveNode_self_not_mem (r : Resource) (nid : String)
    (honce : r.nodeCount nid ≤ 1) : ¬ (r.RemoveNode nid).1.HasNode nid := by
  unfold Resource.nodeCount at honce
  unfold Resource.RemoveNode Resource.HasNode
  split
  · next hn =>
    have hmem : nid ∈ r.Nodes := by simpa using hn
    have h1 : 0 < r.Nodes.count nid := List.count_pos_iff.mpr hmem
    have hzero : (r.Nodes.erase nid).count nid = 0 := by
      rw [List.count_erase_self]
      omega
    dsimp only
    intro h
    rcases h with h | h
    · have := List.count_pos_iff.mpr h
      omega
    · have := List.count_pos_iff.mpr h
      omega
  · next hn =>
    have hnn : nid ∉ r.Nodes := by simpa using hn
    split
    · next hw =>
      have hmem : nid ∈ r.WaitingQueue := by simpa using hw
      have hzero : (r.WaitingQueue.erase nid).count nid = 0 := by
        rw [List.count_erase_self]
        have := List.count_pos_iff.mpr hmem
        omega
      dsimp only
      intro h
      rcases h with h | h
      · exact hnn h
      · have := List.count_pos_iff.mpr h
        omega
    · next hw =>
      have hwn : nid ∉ r.WaitingQueue := by simpa using hw
      dsimp only
      intro h
      rcases h with h | h
      · exact hnn h
      · exact hwn h

theorem AllocateWaitingNode_false (r : Resource) (nid : String) (r1 : Resource)
    (h : r.AllocateWaitingNode nid = (r1, false)) : r1 = r := by
  unfold Resource.AllocateWaitingNode at h
  split at h
  · exact (Prod.mk.injEq .. ▸ h).1.symm ▸ rfl
  · split at h
    · simp at h
    · exact (Prod.mk.injEq .. ▸ h).1.symm ▸ rfl

theorem AllocateWaitingNode_true (r : Resource) (nid : String) (r1 : Resource)
    (h : r.AllocateWaitingNode nid = (r1, true)) :
    ¬ ((r.Nodes.length : Int) ≥ r.Capacity) ∧ nid ∈ r.WaitingQueue ∧
    r1 = { r with WaitingQueue := r.WaitingQueue.erase nid, Nodes := r.Nodes ++ [nid] } := by
  unfold Resource.AllocateWaitingNode at h
  split at h
  · simp at h
  · next hcap =>
    split at h
    · next hw =>
      refine ⟨hcap, by simpa using hw, ?_⟩
      exact ((Prod.mk.injEq .. ▸ h).1).symm
    · simp at h

/-! ## The state invariant and its preservation -/

theorem QSInv_init (qs : QueueService) (h : qs.InitState) : QSInv qs := by
  obtain ⟨hnodes, hres⟩ := h
  constructor
  · intro rid r hr
    exact (hres _ (alookup_mem _ _ _ hr)).1
  · intro rid r hr
    exact (hres _ (alookup_mem _ _ _ hr)).2.1
  · intro rid r hr
    obtain ⟨-, -, hN, -, hc⟩ := hres _ (alookup_mem _ _ _ hr)
    rw [hN]
    simpa using hc
  · intro rid r nid hr
    obtain ⟨-, -, hN, hW, -⟩ := hres _ (alookup_mem _ _ _ hr)
    unfold Resource.nodeCount
    rw [hN, hW]
    simp
  · intro rid r nid hr hq
    obtain ⟨-, -, hN, hW, -⟩ := hres _ (alookup_mem _ _ _ hr)
    unfold Resource.HasNode at hq
    rw [hN, hW] at hq
    simp at hq
  · intro nid n hn
    rw [hnodes] at hn
    simp [alookup] at hn

theorem count_single (x y : String) : List.count x [y] = if x = y then 1 else 0 := by
  by_cases h : x = y <;> simp [h]

theorem AddNode_nodeCount (r : Resource) (nid x : String) :
    (r.AddNode nid).nodeCount x = r.nodeCount x + if x = nid then 1 else 0 := by
  unfold Resource.AddNode Resource.nodeCount
  dsimp only
  rw [List.count_append, count_single]
  omega

theorem AddNode_HasNode (r : Resource) (nid x : String) :
    (r.AddNode nid).HasNode x ↔ r.HasNode x ∨ x = nid := by
  unfold Resource.AddNode Resource.HasNode
  dsimp only
  rw [List.mem_append, List.mem_singleton]
  tauto

theorem HasNode_iff_count (r : Resource) (x : String) : r.HasNode x ↔ 0 < r.nodeCount x := by
  unfold Resource.HasNode Resource.nodeCount
  constructor
  · rintro (h | h)
    · have := List.count_pos_iff.mpr h
      omega
    · have := List.count_pos_iff.mpr h
      omega
  · intro h
    by_cases h1 : x ∈ r.Nodes
    · exact Or.inl h1
    · right
      have := List.count_eq_zero.mpr h1
      exact List.count_pos_iff.mp (by omega)

theorem moveUpdate_ResourceID (n : Node) (rID tgt : String) (t : Int) :
    (n.moveUpdate rID tgt t).ResourceID = rID := rfl

theorem moveUpdate_Completed (n : Node) (rID tgt : String) (t : Int) :
    (n.moveUpdate rID tgt t).Completed = n.Completed := rfl

theorem moveRemoveCurrent_nodes (qs : QueueService) (nodeID : String) (n : Node) :
    (qs.moveRemoveCurrent nodeID n).nodes = qs.nodes := by
  unfold QueueService.moveRemoveCurrent
  split
  · split <;> rfl
  · rfl

theorem moveRemoveCurrent_unassigned (qs : QueueService) (nodeID : String) (n : Node)
    (h : ¬ n.ResourceID ≠ "") : qs.moveRemoveCurrent nodeID n = qs := by
  unfold QueueService.moveRemoveCurrent
  rw [if_neg h]

theorem moveRemoveCurrent_noCur (qs : QueueService) (nodeID : String) (n : Node)
    (h : alookup qs.resources n.ResourceID = none) : qs.moveRemoveCurrent nodeID n = qs := by
  unfold QueueService.moveRemoveCurrent
  split
  · rw [h]
  · rfl

theorem moveRemoveCurrent_cur (qs : QueueService) (nodeID : String) (n : Node) (cur : Resource)
    (hne : n.ResourceID ≠ "") (h : alookup qs.resources n.ResourceID = some cur) :
    qs.moveRemoveCurrent nodeID n =
      { qs with resources := aset qs.resources n.ResourceID (cur.RemoveNode nodeID).1 } := by
  unfold QueueService.moveRemoveCurrent
  rw [if_pos hne, h]

/-- Removing a node from a registered resource preserves the invariant. -/
theorem QSInv_removeStep (qs : QueueService) (rid nid : String) (r : Resource)
    (hr : alookup qs.resources rid = some r) (hinv : QSInv qs) :
    QSInv { qs with resources := aset qs.resources rid (r.RemoveNode nid).1 } := by
  constructor
  · intro rid2 r2 h2
    by_cases he : rid2 = rid
    · subst he
      rw [alookup_aset_self] at h2
      cases h2
      rw [RemoveNode_ID]
      exact hinv.resID _ _ hr
    · rw [alookup_aset_ne _ _ _ _ he] at h2
      exact hinv.resID _ _ h2
  · intro rid2 r2 h2
    by_cases he : rid2 = rid
    · subst he
      exact hinv.ridNE _ _ hr
    · rw [alookup_aset_ne _ _ _ _ he] at h2
      exact hinv.ridNE _ _ h2
  · intro rid2 r2 h2
    by_cases he : rid2 = rid
    · subst he
      rw [alookup_aset_self] at h2
      cases h2
      have h1 := RemoveNode_length_le r nid
      have h3 := hinv.capOK _ _ hr
      rw [RemoveNode_Capacity]
      omega
    · rw [alookup_aset_ne _ _ _ _ he] at h2
      exact hinv.capOK _ _ h2
  · intro rid2 r2 nid2 h2
    by_cases he : rid2 = rid
    · subst he
      rw [alookup_aset_self] at h2
      cases h2
      have h1 := RemoveNode_count_le r nid nid2
      have h3 := hinv.once _ _ nid2 hr
      omega
    · rw [alookup_aset_ne _ _ _ _ he] at h2
      exact hinv.once _ _ _ h2
  · intro rid2 r2 nid2 h2 hq
    by_cases he : rid2 = rid
    · subst he
      rw [alookup_aset_self] at h2
      cases h2
      exact hinv.inQ _ _ _ hr (RemoveNode_mem _ _ _ hq)
    · rw [alookup_aset_ne _ _ _ _ he] at h2
      exact hinv.inQ _ _ _ h2 hq
  · exact hinv.compClear

theorem QSInv_moveRemoveCurrent (qs : QueueService) (nodeID : String) (n : Node)
    (hinv : QSInv qs) : QSInv (qs.moveRemoveCurrent nodeID n) := by
  unfold QueueService.moveRemoveCurrent
  split
  · split
    · next cur hcur => exact QSInv_removeStep qs _ nodeID cur hcur hinv
    · exact hinv
  · exact hinv

/-- After the "remove from current resource" block of `MoveNode`, the moved
node occurs in no registered resource's queues (given the invariant). -/
theorem moveRemoveCurrent_clears (qs : QueueService) (nodeID : String) (n : Node)
    (hinv : QSInv qs) (hn : alookup qs.nodes nodeID = some n) :
    ∀ rid2 r2, alookup (qs.moveRemoveCurrent nodeID n).resources rid2 = some r2 →
      ¬ r2.HasNode nodeID := by
  intro rid2 r2 h2 hq
  by_cases hne : n.ResourceID ≠ ""
  · cases hcur : alookup qs.resources n.ResourceID with
    | none =>
      rw [moveRemoveCurrent_noCur qs nodeID n hcur] at h2
      obtain ⟨m, hm, hmr, -⟩ := hinv.inQ _ _ _ h2 hq
      rw [hn] at hm
      cases hm
      rw [← hmr] at h2
      rw [hcur] at h2
      exact Option.noConfusion h2
    | some cur =>
      rw [moveRemoveCurrent_cur qs nodeID n cur hne hcur] at h2
      by_cases he : rid2 = n.ResourceID
      · subst he
        rw [alookup_aset_self] at h2
        cases h2
        exact RemoveNode_self_not_mem cur nodeID (hinv.once _ _ _ hcur) hq
      · rw [alookup_aset_ne _ _ _ _ he] at h2
        obtain ⟨m, hm, hmr, -⟩ := hinv.inQ _ _ _ h2 hq
        rw [hn] at hm
        cases hm
        exact he hmr.symm
  · rw [moveRemoveCurrent_unassigned qs nodeID n hne] at h2
    obtain ⟨m, hm, hmr, -⟩ := hinv.inQ _ _ _ h2 hq
    rw [hn] at hm
    cases hm
    push_neg at hne
    rw [hne] at hmr
    exact hinv.ridNE _ _ h2 hmr.symm

/-- The success branch of `MoveNode` preserves the invariant. -/
theorem QSInv_moveSuccess (qs : QueueService) (nodeID targetResourceID : String) (t : Int)
    (n : Node) (tr : Resource)
    (hn : alookup qs.nodes nodeID = some n)
    (hcomp : n.Completed = false)
    (htr : alookup (qs.moveRemoveCurrent nodeID n).resources targetResourceID = some tr)
    (hinv : QSInv qs) :
    QSInv { resources :=
              aset (qs.moveRemoveCurrent nodeID n).resources targetResourceID
                (tr.AddNode nodeID),
            nodes :=
              aset (qs.moveRemoveCurrent nodeID n).nodes nodeID
                (n.moveUpdate tr.ID targetResourceID t) } := by
  have hinv1 : QSInv (qs.moveRemoveCurrent nodeID n) := QSInv_moveRemoveCurrent qs nodeID n hinv
  have hclear := moveRemoveCurrent_clears qs nodeID n hinv hn
  have hnodes1 := moveRemoveCurrent_nodes qs nodeID n
  constructor
  · intro rid2 r2 h2
    by_cases he : rid2 = targetResourceID
    · subst he
      rw [alookup_aset_self] at h2
      cases h2
      exact hinv1.resID _ tr htr
    · rw [alookup_aset_ne _ _ _ _ he] at h2
      exact hinv1.resID _ _ h2
  · intro rid2 r2 h2
    by_cases he : rid2 = targetResourceID
    · subst he
      exact hinv1.ridNE _ _ htr
    · rw [alookup_aset_ne _ _ _ _ he] at h2
      exact hinv1.ridNE _ _ h2
  · intro rid2 r2 h2
    by_cases he : rid2 = targetResourceID
    · subst he
      rw [alookup_aset_self] at h2
      cases h2
      exact hinv1.capOK _ tr htr
    · rw [alookup_aset_ne _ _ _ _ he] at h2
      exact hinv1.capOK _ _ h2
  · intro rid2 r2 nid2 h2
    by_cases he : rid2 = targetResourceID
    · subst he
      rw [alookup_aset_self] at h2
      cases h2
      rw [AddNode_nodeCount]
      by_cases hx : nid2 = nodeID
      · subst hx
        have h0 : ¬ tr.HasNode nid2 := hclear _ _ htr
        have hz : tr.nodeCount nid2 = 0 := by
          by_contra hpos
          exact h0 ((HasNode_iff_count tr nid2).mpr (by omega))
        simp [hz]
      · have := hinv1.once _ _ nid2 htr
        simp only [hx, if_false]
        omega
    · rw [alookup_aset_ne _ _ _ _ he] at h2
      exact hinv1.once _ _ _ h2
  · intro rid2 r2 nid2 h2 hq
    by_cases he : rid2 = targetResourceID
    · subst he
      rw [alookup_aset_self] at h2
      cases h2
      rw [AddNode_HasNode] at hq
      rcases hq with hq | hq
      · have hxne : nid2 ≠ nodeID := by
          intro hx
          subst hx
          exact hclear _ _ htr hq
        obtain ⟨m, hm, hmr, hmc⟩ := hinv1.inQ _ _ _ htr hq
        refine ⟨m, ?_, hmr, hmc⟩
        rw [alookup_aset_ne _ _ _ _ hxne]
        exact hm
      · subst hq
        exact ⟨_, alookup_aset_self _ _ _, hinv1.resID _ _ htr,
          by rw [moveUpdate_Completed]; exact hcomp⟩
    · rw [alookup_aset_ne _ _ _ _ he] at h2
      by_cases hx : nid2 = nodeID
      · subst hx
        exact absurd hq (hclear _ _ h2)
      · obtain ⟨m, hm, hmr, hmc⟩ := hinv1.inQ _ _ _ h2 hq
        refine ⟨m, ?_, hmr, hmc⟩
        rw [alookup_aset_ne _ _ _ _ hx]
        exact hm
  · intro nid2 m hm hc
    by_cases hx : nid2 = nodeID
    · subst hx
      rw [alookup_aset_self] at hm
      cases hm
      rw [moveUpdate_Completed, hcomp] at hc
      exact absurd hc (by simp)
    · rw [alookup_aset_ne _ _ _ _ hx, hnodes1] at hm
      exact hinv.compClear _ _ hm hc

theorem QSInv_MoveNode (qs : QueueService) (nodeID targetResourceID : String) (t : Int)
    (hinv : QSInv qs) : QSInv (qs.MoveNode nodeID targetResourceID t).1 := by
  unfold QueueService.MoveNode
  split
  · exact hinv
  · next n hn =>
    split
    · exact hinv
    · next hcomp =>
      split
      · exact hinv
      · split
        · next tr htr =>
          exact QSInv_moveSuccess qs nodeID targetResourceID t n tr hn
            (Bool.not_eq_true _ ▸ hcomp) htr hinv
        · exact QSInv_moveRemoveCurrent qs nodeID n hinv

/-- The success branch of `AllocateNode` preserves the invariant. -/
theorem QSInv_allocSuccess (qs : QueueService) (nodeID : String) (t : Int) (n : Node)
    (r r1 : Resource)
    (hn : alookup qs.nodes nodeID = some n)
    (hcomp : n.Completed = false)
    (hr : alookup qs.resources n.ResourceID = some r)
    (hsvc : ¬ r.IsInService nodeID = true)
    (hfull : ¬ r.IsFull = true)
    (heq : r.AllocateWaitingNode nodeID = (r1, true))
    (hinv : QSInv qs) :
    QSInv { resources := aset qs.resources n.ResourceID r1,
            nodes :=
              aset qs.nodes nodeID (n.AddLog "moved_to_service_queue" n.ResourceID t) } := by
  obtain ⟨hcap, hwmem, hr1⟩ := AllocateWaitingNode_true r nodeID r1 heq
  subst hr1
  have hnotsvc : nodeID ∉ r.Nodes := by
    simpa [Resource.IsInService] using hsvc
  constructor
  · intro rid2 r2 h2
    by_cases he : rid2 = n.ResourceID
    · subst he
      rw [alookup_aset_self] at h2
      cases h2
      exact hinv.resID _ r hr
    · rw [alookup_aset_ne _ _ _ _ he] at h2
      exact hinv.resID _ _ h2
  · intro rid2 r2 h2
    by_cases he : rid2 = n.ResourceID
    · subst he
      exact hinv.ridNE _ _ hr
    · rw [alookup_aset_ne _ _ _ _ he] at h2
      exact hinv.ridNE _ _ h2
  · intro rid2 r2 h2
    by_cases he : rid2 = n.ResourceID
    · subst he
      rw [alookup_aset_self] at h2
      cases h2
      have hlt : (r.Nodes.length : Int) < r.Capacity := by
        simpa [Resource.IsFull] using hfull
      have hlen : ((r.Nodes ++ [nodeID]).length : Int) = (r.Nodes.length : Int) + 1 := by
        simp
      dsimp only
      rw [hlen]
      omega
    · rw [alookup_aset_ne _ _ _ _ he] at h2
      exact hinv.capOK _ _ h2
  · intro rid2 r2 nid2 h2
    by_cases he : rid2 = n.ResourceID
    · subst he
      rw [alookup_aset_self] at h2
      cases h2
      have honce := hinv.once _ _ nid2 hr
      unfold Resource.nodeCount at honce ⊢
      dsimp only
      rw [List.count_append, count_single]
      by_cases hx : nid2 = nodeID
      · subst hx
        have h0 : r.Nodes.count nid2 = 0 := List.count_eq_zero.mpr hnotsvc
        have hw1 : 0 < r.WaitingQueue.count nid2 := List.count_pos_iff.mpr hwmem
        have he1 : (r.WaitingQueue.erase nid2).count nid2 = r.WaitingQueue.count nid2 - 1 :=
          List.count_erase_self _ _
        simp only [if_pos trivial, eq_self_iff_true]
        omega
      · have he1 := List.count_erase_of_ne hx r.WaitingQueue
        simp only [hx, if_false]
        omega
    · rw [alookup_aset_ne _ _ _ _ he] at h2
      exact hinv.once _ _ _ h2
  · intro rid2 r2 nid2 h2 hq
    by_cases he : rid2 = n.ResourceID
    · subst he
      rw [alookup_aset_self] at h2
      cases h2
      unfold Resource.HasNode at hq
      dsimp only at hq
      by_cases hx : nid2 = nodeID
      · subst hx
        exact ⟨_, alookup_aset_self _ _ _, rfl, hcomp⟩
      · have hq2 : r.HasNode nid2 := by
          unfold Resource.HasNode
          rcases hq with hq | hq
          · rw [List.mem_append, List.mem_singleton] at hq
            rcases hq with hq | hq
            · exact Or.inl hq
            · exact absurd hq hx
          · exact Or.inr (List.mem_of_mem_erase hq)
        obtain ⟨m, hm, hmr, hmc⟩ := hinv.inQ _ _ _ hr hq2
        refine ⟨m, ?_, hmr, hmc⟩
        rw [alookup_aset_ne _ _ _ _ hx]
        exact hm
    · rw [alookup_aset_ne _ _ _ _ he] at h2
      by_cases hx : nid2 = nodeID
      · subst hx
        obtain ⟨m, hm, hmr, -⟩ := hinv.inQ _ _ _ h2 hq
        rw [hn] at hm
        cases hm
        exact absurd hmr.symm he
      · obtain ⟨m, hm, hmr, hmc⟩ := hinv.inQ _ _ _ h2 hq
        refine ⟨m, ?_, hmr, hmc⟩
        rw [alookup_aset_ne _ _ _ _ hx]
        exact hm
  · intro nid2 m hm hc
    by_cases hx : nid2 = nodeID
    · subst hx
      rw [alookup_aset_self] at hm
      cases hm
      rw [show (n.AddLog "moved_to_service_queue" n.ResourceID t).Completed = n.Completed
           from rfl, hcomp] at hc
      exact absurd hc (by simp)
    · rw [alookup_aset_ne _ _ _ _ hx] at hm
      exact hinv.compClear _ _ hm hc

theorem QSInv_AllocateNode (qs : QueueService) (nodeID : String) (t : Int)
    (hinv : QSInv qs) : QSInv (qs.AllocateNode nodeID t).1 := by
  unfold QueueService.AllocateNode
  split
  · exact hinv
  · next n hn =>
    split
    · exact hinv
    · next hcomp =>
      split
      · exact hinv
      · split
        · exact hinv
        · next r hr =>
          split
          · exact hinv
          · next hsvc =>
            split
            · exact hinv
            · next hfull =>
              split
              · next r1 heq =>
                have hr1 : r1 = r := AllocateWaitingNode_false r nodeID r1 heq
                subst hr1
                rw [aset_eq_of_alookup _ _ _ hr]
                exact hinv
              · next r1 heq =>
                exact QSInv_allocSuccess qs nodeID t n r r1 hn
                  (Bool.not_eq_true _ ▸ hcomp) hr hsvc hfull heq hinv

theorem completeRemoveCurrent_eq_move (qs : QueueService) (nodeID : String) (n : Node)
    (hne : n.ResourceID ≠ "") :
    qs.completeRemoveCurrent nodeID n.ResourceID = qs.moveRemoveCurrent nodeID n := by
  unfold QueueService.completeRemoveCurrent QueueService.moveRemoveCurrent
  rw [if_pos hne]

theorem completeUpdate_ResourceID (n : Node) (t : Int) :
    (n.completeUpdate t).ResourceID = n.ResourceID := rfl

theorem completeUpdate_Completed (n : Node) (t : Int) :
    (n.completeUpdate t).Completed = true := rfl

theorem QSInv_CompleteNode (qs : QueueService) (nodeID : String) (t : Int)
    (hinv : QSInv qs) : QSInv (qs.CompleteNode nodeID t).1 := by
  unfold QueueService.CompleteNode
  split
  · exact hinv
  · next n hn =>
    split
    · exact hinv
    · next hcompn =>
      split
      · next hne =>
        rw [completeRemoveCurrent_eq_move qs nodeID n hne]
        have hinv1 : QSInv (qs.moveRemoveCurrent nodeID n) :=
          QSInv_moveRemoveCurrent qs nodeID n hinv
        have hclear := moveRemoveCurrent_clears qs nodeID n hinv hn
        have hnodes1 := moveRemoveCurrent_nodes qs nodeID n
        constructor
        · exact hinv1.resID
        · exact hinv1.ridNE
        · exact hinv1.capOK
        · exact hinv1.once
        · intro rid2 r2 nid2 h2 hq
          by_cases hx : nid2 = nodeID
          · subst hx
            exact absurd hq (hclear _ _ h2)
          · obtain ⟨m, hm, hmr, hmc⟩ := hinv1.inQ _ _ _ h2 hq
            refine ⟨m, ?_, hmr, hmc⟩
            rw [alookup_aset_ne _ _ _ _ hx]
            exact hm
        · intro nid2 m hm hc
          by_cases hx : nid2 = nodeID
          · subst hx
            rw [alookup_aset_self] at hm
            cases hm
            rfl
          · rw [alookup_aset_ne _ _ _ _ hx, hnodes1] at hm
            exact hinv.compClear _ _ hm hc
      · next hne =>
        have hrid : n.ResourceID = "" := by
          push_neg at hne
          exact hne
        constructor
        · exact hinv.resID
        · exact hinv.ridNE
        · exact hinv.capOK
        · exact hinv.once
        · intro rid2 r2 nid2 h2 hq
          by_cases hx : nid2 = nodeID
          · subst hx
            obtain ⟨m, hm, hmr, -⟩ := hinv.inQ _ _ _ h2 hq
            rw [hn] at hm
            cases hm
            rw [hrid] at hmr
            exact absurd hmr.symm (hinv.ridNE _ _ h2)
          · obtain ⟨m, hm, hmr, hmc⟩ := hinv.inQ _ _ _ h2 hq
            refine ⟨m, ?_, hmr, hmc⟩
            rw [alookup_aset_ne _ _ _ _ hx]
            exact hm
        · intro nid2 m hm hc
          by_cases hx : nid2 = nodeID
          · subst hx
            rw [alookup_aset_self] at hm
            cases hm
            rw [completeUpdate_ResourceID]
            exact hrid
          · rw [alookup_aset_ne _ _ _ _ hx] at hm
            exact hinv.compClear _ _ hm hc

theorem QSInv_CreateNode (qs : QueueService) (id entityName : String) (t : Int)
    (hfresh : alookup qs.nodes id = none) (hinv : QSInv qs) :
    QSInv (qs.CreateNode id entityName t).1 := by
  constructor
  · exact hinv.resID
  · exact hinv.ridNE
  · exact hinv.capOK
  · exact hinv.once
  · intro rid2 r2 nid2 h2 hq
    obtain ⟨m, hm, hmr, hmc⟩ := hinv.inQ _ _ _ h2 hq
    by_cases hx : nid2 = id
    · subst hx
      rw [hfresh] at hm
      exact Option.noConfusion hm
    · refine ⟨m, ?_, hmr, hmc⟩
      show alookup (aset qs.nodes id (newNode id entityName t)) nid2 = some m
      rw [alookup_aset_ne _ _ _ _ hx]
      exact hm
  · intro nid2 m hm hc
    by_cases hx : nid2 = id
    · subst hx
      replace hm : alookup (aset qs.nodes nid2 (newNode nid2 entityName t)) nid2 = some m := hm
      rw [alookup_aset_self] at hm
      cases hm
      exact absurd hc (by simp [newNode, Node.AddLog])
    · replace hm : alookup (aset qs.nodes id (newNode id entityName t)) nid2 = some m := hm
      rw [alookup_aset_ne _ _ _ _ hx] at hm
      exact hinv.compClear _ _ hm hc

theorem alookup_aset_isSome {α : Type} (m : List (String × α)) (k k2 : String) (v v2 : α)
    (h : alookup m k2 = some v2) : ∃ w, alookup (aset m k v) k2 = some w := by
  by_cases he : k2 = k
  · subst he
    exact ⟨v, alookup_aset_self _ _ _⟩
  · exact ⟨v2, by rw [alookup_aset_ne _ _ _ _ he]; exact h⟩

theorem moveRemoveCurrent_keeps (qs : QueueService) (nodeID : String) (n : Node)
    (k : String) (v : Resource) (h : alookup qs.resources k = some v) :
    ∃ w, alookup (qs.moveRemoveCurrent nodeID n).resources k = some w := by
  unfold QueueService.moveRemoveCurrent
  split
  · split
    · next cur hcur => exact alookup_aset_isSome _ _ _ _ _ h
    · exact ⟨v, h⟩
  · exact ⟨v, h⟩

/-- Every `MoveNode` call either succeeds or leaves the state exactly as it
was (the inner target re-lookup can never miss). -/
theorem MoveNode_cases (qs : QueueService) (nodeID targetResourceID : String) (t : Int) :
    (qs.MoveNode nodeID targetResourceID t).2 = none ∨
    (qs.MoveNode nodeID targetResourceID t).1 = qs := by
  unfold QueueService.MoveNode
  split
  · right
    rfl
  · next n hn =>
    split
    · right
      rfl
    · split
      · right
        rfl
      · next tr0 htgt0 =>
        split
        · left
          rfl
        · next htr =>
          exfalso
          obtain ⟨w, hw⟩ := moveRemoveCurrent_keeps qs nodeID n _ _ htgt0
          rw [htr] at hw
          exact Option.noConfusion hw

/-- Every `AllocateNode` call either succeeds or leaves the state exactly as
it was (a failed `AllocateWaitingNode` does not modify the resource). -/
theorem AllocateNode_cases (qs : QueueService) (nodeID : String) (t : Int) :
    (qs.AllocateNode nodeID t).2 = none ∨ (qs.AllocateNode nodeID t).1 = qs := by
  unfold QueueService.AllocateNode
  split
  · right
    rfl
  · next n hn =>
    split
    · right
      rfl
    · split
      · right
        rfl
      · split
        · right
          rfl
        · next r hr =>
          split
          · right
            rfl
          · split
            · right
              rfl
            · split
              · next r1 heq =>
                right
                have hr1 : r1 = r := AllocateWaitingNode_false r nodeID r1 heq
                subst hr1
                dsimp only
                rw [aset_eq_of_alookup _ _ _ hr]
              · left
                rfl

/-- Every `CompleteNode` call either succeeds or leaves the state exactly as
it was. -/
theorem CompleteNode_cases (qs : QueueService) (nodeID : String) (t : Int) :
    (qs.CompleteNode nodeID t).2 = none ∨ (qs.CompleteNode nodeID t).1 = qs := by
  unfold QueueService.CompleteNode
  split
  · right
    rfl
  · split
    · right
      rfl
    · split
      · left
        rfl
      · left
        rfl

/-- Every reachable state satisfies the invariant. -/
theorem Reach_QSInv (qs : QueueService) (h : Reach qs) : QSInv qs := by
  induction h with
  | init qs h => exact QSInv_init qs h
  | create qs id entityName t h hfresh ih => exact QSInv_CreateNode qs id entityName t hfresh ih
  | move qs nodeID targetResourceID t h ih => exact QSInv_MoveNode qs nodeID targetResourceID t ih
  | alloc qs nodeID t h ih => exact QSInv_AllocateNode qs nodeID t ih
  | complete qs nodeID t h ih => exact QSInv_CompleteNode qs nodeID t ih

/-! ## Frame and error-characterization lemmas -/

theorem completeRemoveCurrent_nodes (qs : QueueService) (nodeID rid : String) :
    (qs.completeRemoveCurrent nodeID rid).nodes = qs.nodes := by
  unfold QueueService.completeRemoveCurrent
  split <;> rfl

/-- A `MoveNode` call never changes any node entry other than the moved one. -/
theorem MoveNode_nodes_frame (qs : QueueService) (nodeID targetResourceID : String) (t : Int)
    (x : String) (hx : x ≠ nodeID) :
    alookup (qs.MoveNode nodeID targetResourceID t).1.nodes x = alookup qs.nodes x := by
  unfold QueueService.MoveNode
  split
  · rfl
  · split
    · rfl
    · split
      · rfl
      · split
        · dsimp only
          rw [alookup_aset_ne _ _ _ _ hx, moveRemoveCurrent_nodes]
        · rw [moveRemoveCurrent_nodes]

/-- An `AllocateNode` call never changes any node entry other than the
allocated one. -/
theorem AllocateNode_nodes_frame (qs : QueueService) (nodeID : String) (t : Int)
    (x : String) (hx : x ≠ nodeID) :
    alookup (qs.AllocateNode nodeID t).1.nodes x = alookup qs.nodes x := by
  unfold QueueService.AllocateNode
  split
  · rfl
  · split
    · rfl
    · split
      · rfl
      · split
        · rfl
        · split
          · rfl
          · split
            · rfl
            · split
              · rfl
              · dsimp only
                rw [alookup_aset_ne _ _ _ _ hx]

/-- A `CompleteNode` call never changes any node entry other than the
completed one. -/
theorem CompleteNode_nodes_frame (qs : QueueService) (nodeID : String) (t : Int)
    (x : String) (hx : x ≠ nodeID) :
    alookup (qs.CompleteNode nodeID t).1.nodes x = alookup qs.nodes x := by
  unfold QueueService.CompleteNode
  split
  · rfl
  · split
    · rfl
    · split
      · dsimp only
        rw [alookup_aset_ne _ _ _ _ hx, completeRemoveCurrent_nodes]
      · dsimp only
        rw [alookup_aset_ne _ _ _ _ hx]

theorem MoveNode_completed_error (qs : QueueService) (nodeID targetResourceID : String)
    (t : Int) (n : Node) (hn : alookup qs.nodes nodeID = some n) (hc : n.Completed = true) :
    qs.MoveNode nodeID targetResourceID t = (qs, some "cannot move completed node") := by
  unfold QueueService.MoveNode
  rw [hn]
  simp [hc]

theorem AllocateNode_completed_error (qs : QueueService) (nodeID : String) (t : Int) (n : Node)
    (hn : alookup qs.nodes nodeID = some n) (hc : n.Completed = true) :
    qs.AllocateNode nodeID t = (qs, some "cannot allocate completed node") := by
  unfold QueueService.AllocateNode
  rw [hn]
  simp [hc]

theorem CompleteNode_completed_error (qs : QueueService) (nodeID : String) (t : Int) (n : Node)
    (hn : alookup qs.nodes nodeID = some n) (hc : n.Completed = true) :
    qs.CompleteNode nodeID t = (qs, some "node is already completed") := by
  unfold QueueService.CompleteNode
  rw [hn]
  simp [hc]

theorem AllocateNode_not_found (qs : QueueService) (nodeID : String) (t : Int)
    (hn : alookup qs.nodes nodeID = none) :
    qs.AllocateNode nodeID t = (qs, some "node not found") := by
  unfold QueueService.AllocateNode
  rw [hn]

theorem AllocateNode_unassigned (qs : QueueService) (nodeID : String) (t : Int) (n : Node)
    (hn : alookup qs.nodes nodeID = some n) (hc : n.Completed = false)
    (hrid : n.ResourceID = "") :
    qs.AllocateNode nodeID t = (qs, some "node is not assigned to a resource") := by
  unfold QueueService.AllocateNode
  rw [hn]
  simp [hc, hrid]

theorem AllocateNode_in_service (qs : QueueService) (nodeID : String) (t : Int) (n : Node)
    (r : Resource) (hn : alookup qs.nodes nodeID = some n) (hc : n.Completed = false)
    (hrid : n.ResourceID ≠ "") (hr : alookup qs.resources n.ResourceID = some r)
    (hsvc : nodeID ∈ r.Nodes) :
    qs.AllocateNode nodeID t = (qs, some "node is already in service queue") := by
  unfold QueueService.AllocateNode
  rw [hn]
  simp [hc, hrid, hr, Resource.IsInService, hsvc]

theorem AllocateNode_full (qs : QueueService) (nodeID : String) (t : Int) (n : Node)
    (r : Resource) (hn : alookup qs.nodes nodeID = some n) (hc : n.Completed = false)
    (hrid : n.ResourceID ≠ "") (hr : alookup qs.resources n.ResourceID = some r)
    (hsvc : nodeID ∉ r.Nodes) (hfull : (r.Nodes.length : Int) ≥ r.Capacity) :
    qs.AllocateNode nodeID t = (qs, some "resource is at full capacity") := by
  unfold QueueService.AllocateNode
  rw [hn]
  simp [hc, hrid, hr, Resource.IsInService, hsvc, Resource.IsFull, hfull]

theorem AllocateNode_not_waiting (qs : QueueService) (nodeID : String) (t : Int) (n : Node)
    (r : Resource) (hn : alookup qs.nodes nodeID = some n) (hc : n.Completed = false)
    (hrid : n.ResourceID ≠ "") (hr : alookup qs.resources n.ResourceID = some r)
    (hsvc : nodeID ∉ r.Nodes) (hfull : ¬ ((r.Nodes.length : Int) ≥ r.Capacity))
    (hw : nodeID ∉ r.WaitingQueue) :
    qs.AllocateNode nodeID t = (qs, some "node is not in waiting queue") := by
  have hfalse : r.AllocateWaitingNode nodeID = (r, false) := by
    unfold Resource.AllocateWaitingNode
    rw [if_neg hfull, if_neg (by simpa using hw)]
  have hsvcb : r.IsInService nodeID = false := by
    simp [Resource.IsInService, hsvc]
  have hfullb : r.IsFull = false := by
    simp [Resource.IsFull]
    omega
  unfold QueueService.AllocateNode
  rw [hn]
  simp [hc, hrid, hr, hsvcb, hfullb, hfalse, aset_eq_of_alookup _ _ _ hr]

/-- Full characterization of a successful `CompleteNode` call on the
completed node's entry. -/
theorem CompleteNode_success (qs : QueueService) (nodeID : String) (t : Int) (n : Node)
    (hn : alookup qs.nodes nodeID = some n) (hc : n.Completed = false) :
    (qs.CompleteNode nodeID t).2 = none ∧
    ∃ n2, alookup (qs.CompleteNode nodeID t).1.nodes nodeID = some n2 ∧
      n2.Completed = true ∧ n2.ResourceID = "" ∧
      n2.Log = n.Log ++ [{ Action := "completed", ResourceID := n.ResourceID, Timestamp := t }] := by
  unfold QueueService.CompleteNode
  rw [hn]
  dsimp only
  rw [if_neg (by simp [hc])]
  split
  · next hne =>
    exact ⟨rfl, _, alookup_aset_self _ _ _, rfl, rfl, rfl⟩
  · next hne =>
    refine ⟨rfl, _, alookup_aset_self _ _ _, rfl, ?_, rfl⟩
    rw [completeUpdate_ResourceID]
    push_neg at hne
    exact hne

/-- Full characterization of a successful `AllocateNode` call. -/
theorem AllocateNode_success (qs : QueueService) (nodeID : String) (t : Int)
    (qs1 : QueueService) (h : qs.AllocateNode nodeID t = (qs1, none)) :
    ∃ n r, alookup qs.nodes nodeID = some n ∧ n.Completed = false ∧ n.ResourceID ≠ "" ∧
      alookup qs.resources n.ResourceID = some r ∧ nodeID ∉ r.Nodes ∧
      nodeID ∈ r.WaitingQueue ∧ ¬ ((r.Nodes.length : Int) ≥ r.Capacity) ∧
      qs1 = { resources :=
                aset qs.resources n.ResourceID
                  { r with WaitingQueue := r.WaitingQueue.erase nodeID,
                           Nodes := r.Nodes ++ [nodeID] },
              nodes :=
                aset qs.nodes nodeID
                  (n.AddLog "moved_to_service_queue" n.ResourceID t) } := by
  unfold QueueService.AllocateNode at h
  split at h
  · simp at h
  · next n hn =>
    split at h
    · simp at h
    · next hcomp =>
      split at h
      · simp at h
      · next hrid =>
        split at h
        · simp at h
        · next r hr =>
          split at h
          · simp at h
          · next hsvc =>
            split at h
            · simp at h
            · next hfull =>
              split at h
              · simp at h
              · next r1 heq =>
                obtain ⟨hcap, hwmem, hr1⟩ := AllocateWaitingNode_true r nodeID r1 heq
                subst hr1
                refine ⟨n, r, hn, Bool.not_eq_true _ ▸ hcomp, hrid, hr, ?_, hwmem, ?_, ?_⟩
                · simpa [Resource.IsInService] using hsvc
                · simpa [Resource.IsFull] using hfull
                · have := (Prod.mk.injEq .. ▸ h).1
                  exact this.symm

/-! ## Witness states: a concrete run of the service -/

theorem Reach_qsW3 : Reach qsW3 :=
  Reach.alloc qsW2 "a" 3
    (Reach.move qsW1 "a" "X" 2
      (Reach.create qsW0 "a" "e1" 1 (Reach.init qsW0 (by decide)) rfl))

theorem Reach_qsW4 : Reach qsW4 := Reach.complete qsW3 "a" 4 Reach_qsW3

/-! ## The claims -/

/-- C1: for every `QueueService` state, a call to `MoveNode`, `AllocateNode`
or `CompleteNode` that returns an error leaves the entire observable state
(the node index with every node's `ResourceID`, `Completed` flag and log,
and every resource's waiting and service queues) exactly as it was before
the call. -/
theorem C1_failed_call_leaves_state_unchanged (qs : QueueService)
    (nodeID targetResourceID : String) (t : Int) :
    ((qs.MoveNode nodeID targetResourceID t).2.isSome = true →
      (qs.MoveNode nodeID targetResourceID t).1 = qs) ∧
    ((qs.AllocateNode nodeID t).2.isSome = true → (qs.AllocateNode nodeID t).1 = qs) ∧
    ((qs.CompleteNode nodeID t).2.isSome = true → (qs.CompleteNode nodeID t).1 = qs) := by
  refine ⟨?_, ?_, ?_⟩
  · intro hs
    rcases MoveNode_cases qs nodeID targetResourceID t with hc | hc
    · rw [hc] at hs
      exact Bool.noConfusion hs
    · exact hc
  · intro hs
    rcases AllocateNode_cases qs nodeID t with hc | hc
    · rw [hc] at hs
      exact Bool.noConfusion hs
    · exact hc
  · intro hs
    rcases CompleteNode_cases qs nodeID t with hc | hc
    · rw [hc] at hs
      exact Bool.noConfusion hs
    · exact hc

/-- Witness for C1: moving an unknown node in the startup state fails and
leaves the state unchanged. -/
theorem C1_witness :
    (qsW0.MoveNode "missing" "X" 0).2.isSome = true ∧
    (qsW0.MoveNode "missing" "X" 0).1 = qsW0 :=
  ⟨by decide, (C1_failed_call_leaves_state_unchanged qsW0 "missing" "X" 0).1 (by decide)⟩

/-- C2: in every reachable state, a node id occurs in the queues of at most
one resource, never in both the service and waiting queue of that resource,
and the resource it occurs in is exactly the one named by the node's
`ResourceID` (which also equals that resource's `ID` field). -/
theorem C2_node_in_at_most_one_queue (qs : QueueService) (h : Reach qs) :
    ∀ nid rid1 r1 rid2 r2,
      alookup qs.resources rid1 = some r1 → alookup qs.resources rid2 = some r2 →
      (nid ∈ r1.Nodes ∨ nid ∈ r1.WaitingQueue) → (nid ∈ r2.Nodes ∨ nid ∈ r2.WaitingQueue) →
      rid1 = rid2 ∧ ¬ (nid ∈ r1.Nodes ∧ nid ∈ r1.WaitingQueue) ∧
      ∃ n, alookup qs.nodes nid = some n ∧ n.ResourceID = rid1 ∧ r1.ID = rid1 := by
  intro nid rid1 r1 rid2 r2 h1 h2 hq1 hq2
  have hinv := Reach_QSInv qs h
  obtain ⟨n, hn, hnr, -⟩ := hinv.inQ _ _ _ h1 hq1
  obtain ⟨m, hm, hmr, -⟩ := hinv.inQ _ _ _ h2 hq2
  rw [hn] at hm
  injection hm with he
  subst he
  refine ⟨?_, ?_, n, hn, hnr, hinv.resID _ _ h1⟩
  · rw [← hnr, ← hmr]
  · rintro ⟨ha, hb⟩
    have honce := hinv.once _ _ nid h1
    unfold Resource.nodeCount at honce
    have c1 := List.count_pos_iff.mpr ha
    have c2 := List.count_pos_iff.mpr hb
    omega

/-- Witness for C2: in the reachable state `qsW3` the allocated node `a`
sits only in `X` and `X` matches its `ResourceID`. -/
theorem C2_witness :
    "X" = "X" ∧ ¬ ("a" ∈ rWfull.Nodes ∧ "a" ∈ rWfull.WaitingQueue) ∧
    ∃ n, alookup qsW3.nodes "a" = some n ∧ n.ResourceID = "X" ∧ rWfull.ID = "X" :=
  C2_node_in_at_most_one_queue qsW3 Reach_qsW3 "a" "X" rWfull "X" rWfull
    (by decide) (by decide) (by decide) (by decide)

/-- C3: in every reachable state, every resource's service queue length is
at most its capacity. -/
theorem C3_service_within_capacity (qs : QueueService) (h : Reach qs) :
    ∀ rid r, alookup qs.resources rid = some r → (r.Nodes.length : Int) ≤ r.Capacity := by
  intro rid r hr
  exact (Reach_QSInv qs h).capOK _ _ hr

/-- Witness for C3: in the reachable state `qsW3`, resource `X` (capacity 1,
one node in service) satisfies the bound. -/
theorem C3_witness : (rWfull.Nodes.length : Int) ≤ rWfull.Capacity :=
  C3_service_within_capacity qsW3 Reach_qsW3 "X" rWfull (by decide)

/-- C4: in every reachable state, a completed node has an empty `ResourceID`
and sits in no resource's queue; every further `MoveNode`/`AllocateNode`/
`CompleteNode` addressed to it returns the corresponding error; and no call
whatsoever (any move, allocate or complete, or a fresh create) ever changes
its node entry again — in particular no further `moved_to_*` log entries are
appended. -/
theorem C4_completed_node_cleared_and_frozen (qs : QueueService) (h : Reach qs)
    (nid : String) (n : Node) (hn : alookup qs.nodes nid = some n)
    (hc : n.Completed = true) :
    (n.ResourceID = "" ∧
      ∀ rid r, alookup qs.resources rid = some r → nid ∉ r.Nodes ∧ nid ∉ r.WaitingQueue) ∧
    (∀ targetResourceID t,
      (qs.MoveNode nid targetResourceID t).2 = some "cannot move completed node") ∧
    (∀ t, (qs.AllocateNode nid t).2 = some "cannot allocate completed node") ∧
    (∀ t, (qs.CompleteNode nid t).2 = some "node is already completed") ∧
    (∀ nid2 targetResourceID t,
      alookup (qs.MoveNode nid2 targetResourceID t).1.nodes nid = some n) ∧
    (∀ nid2 t, alookup (qs.AllocateNode nid2 t).1.nodes nid = some n) ∧
    (∀ nid2 t, alookup (qs.CompleteNode nid2 t).1.nodes nid = some n) ∧
    (∀ id2 entityName t, alookup qs.nodes id2 = none →
      alookup (qs.CreateNode id2 entityName t).1.nodes nid = some n) := by
  have hinv := Reach_QSInv qs h
  refine ⟨⟨hinv.compClear _ _ hn hc, ?_⟩, ?_, ?_, ?_, ?_, ?_, ?_, ?_⟩
  · intro rid r hr
    constructor
    · intro hmem
      obtain ⟨m, hm, -, hmc⟩ := hinv.inQ _ _ _ hr (Or.inl hmem)
      rw [hn] at hm
      injection hm with he
      subst he
      rw [hc] at hmc
      exact Bool.noConfusion hmc
    · intro hmem
      obtain ⟨m, hm, -, hmc⟩ := hinv.inQ _ _ _ hr (Or.inr hmem)
      rw [hn] at hm
      injection hm with he
      subst he
      rw [hc] at hmc
      exact Bool.noConfusion hmc
  · intro targetResourceID t
    rw [MoveNode_completed_error qs nid targetResourceID t n hn hc]
  · intro t
    rw [AllocateNode_completed_error qs nid t n hn hc]
  · intro t
    rw [CompleteNode_completed_error qs nid t n hn hc]
  · intro nid2 targetResourceID t
    by_cases hx : nid = nid2
    · subst hx
      rw [MoveNode_completed_error qs nid targetResourceID t n hn hc]
      exact hn
    · rw [MoveNode_nodes_frame qs nid2 targetResourceID t nid hx]
      exact hn
  · intro nid2 t
    by_cases hx : nid = nid2
    · subst hx
      rw [AllocateNode_completed_error qs nid t n hn hc]
      exact hn
    · rw [AllocateNode_nodes_frame qs nid2 t nid hx]
      exact hn
  · intro nid2 t
    by_cases hx : nid = nid2
    · subst hx
      rw [CompleteNode_completed_error qs nid t n hn hc]
      exact hn
    · rw [CompleteNode_nodes_frame qs nid2 t nid hx]
      exact hn
  · intro id2 entityName t hfresh
    have hx : nid ≠ id2 := by
      intro he
      rw [he, hfresh] at hn
      exact Option.noConfusion hn
    show alookup (aset qs.nodes id2 (newNode id2 entityName t)) nid = some n
    rw [alookup_aset_ne _ _ _ _ hx]
    exact hn

/-- Witness for C4: the node completed in `qsW4` is unassigned and every
further operation on it fails. -/
theorem C4_witness :
    nCompletedW.ResourceID = "" ∧
    (qsW4.MoveNode "a" "X" 9).2 = some "cannot move completed node" ∧
    (qsW4.AllocateNode "a" 9).2 = some "cannot allocate completed node" ∧
    (qsW4.CompleteNode "a" 9).2 = some "node is already completed" :=
  ⟨(C4_completed_node_cleared_and_frozen qsW4 Reach_qsW4 "a" nCompletedW
      (by decide) (by decide)).1.1,
   (C4_completed_node_cleared_and_frozen qsW4 Reach_qsW4 "a" nCompletedW
      (by decide) (by decide)).2.1 "X" 9,
   (C4_completed_node_cleared_and_frozen qsW4 Reach_qsW4 "a" nCompletedW
      (by decide) (by decide)).2.2.1 9,
   (C4_completed_node_cleared_and_frozen qsW4 Reach_qsW4 "a" nCompletedW
      (by decide) (by decide)).2.2.2.1 9⟩

/-- C5: the complete failure taxonomy of `AllocateNode` — absent node,
completed node, unassigned node, node already in service, resource full,
node not in the waiting queue — each with its error and no other outcome;
a successful call appends exactly one `moved_to_service_queue` log entry to
the node; and on a capacity-1 resource with two distinct waiting nodes, two
consecutive allocations have the first succeed and the second fail with the
capacity error, leaving the available capacity at 0. -/
theorem C5_allocate_error_taxonomy :
    (∀ (qs : QueueService) (nodeID : String) (t : Int), alookup qs.nodes nodeID = none →
      qs.AllocateNode nodeID t = (qs, some "node not found")) ∧
    (∀ (qs : QueueService) (nodeID : String) (t : Int) (n : Node),
      alookup qs.nodes nodeID = some n → n.Completed = true →
      qs.AllocateNode nodeID t = (qs, some "cannot allocate completed node")) ∧
    (∀ (qs : QueueService) (nodeID : String) (t : Int) (n : Node),
      alookup qs.nodes nodeID = some n → n.Completed = false →
      n.ResourceID = "" →
      qs.AllocateNode nodeID t = (qs, some "node is not assigned to a resource")) ∧
    (∀ (qs : QueueService) (nodeID : String) (t : Int) (n : Node) (r : Resource),
      alookup qs.nodes nodeID = some n → n.Completed = false →
      n.ResourceID ≠ "" → alookup qs.resources n.ResourceID = some r → nodeID ∈ r.Nodes →
      qs.AllocateNode nodeID t = (qs, some "node is already in service queue")) ∧
    (∀ (qs : QueueService) (nodeID : String) (t : Int) (n : Node) (r : Resource),
      alookup qs.nodes nodeID = some n → n.Completed = false →
      n.ResourceID ≠ "" → alookup qs.resources n.ResourceID = some r → nodeID ∉ r.Nodes →
      (r.Nodes.length : Int) ≥ r.Capacity →
      qs.AllocateNode nodeID t = (qs, some "resource is at full capacity")) ∧
    (∀ (qs : QueueService) (nodeID : String) (t : Int) (n : Node) (r : Resource),
      alookup qs.nodes nodeID = some n → n.Completed = false →
      n.ResourceID ≠ "" → alookup qs.resources n.ResourceID = some r → nodeID ∉ r.Nodes →
      ¬ ((r.Nodes.length : Int) ≥ r.Capacity) → nodeID ∉ r.WaitingQueue →
      qs.AllocateNode nodeID t = (qs, some "node is not in waiting queue")) ∧
    (∀ (qs qs1 : QueueService) (nodeID : String) (t : Int),
      qs.AllocateNode nodeID t = (qs1, none) →
      ∃ n, alookup qs.nodes nodeID = some n ∧
        alookup qs1.nodes nodeID = some (n.AddLog "moved_to_service_queue" n.ResourceID t)) ∧
    ((qsS1.AllocateNode "a" 5).2 = none ∧
      (qsS2.AllocateNode "b" 6).2 = some "resource is at full capacity" ∧
      (qsS2.AllocateNode "b" 6).1 = qsS2 ∧
      alookup qsS2.resources "X" = some rSfull ∧ rSfull.GetAvailableCapacity = 0) := by
  refine ⟨?_, ?_, ?_, ?_, ?_, ?_, ?_, ?_⟩
  · intro qs nodeID t hn
    exact AllocateNode_not_found qs nodeID t hn
  · intro qs nodeID t n hn hc
    exact AllocateNode_completed_error qs nodeID t n hn hc
  · intro qs nodeID t n hn hc hrid
    exact AllocateNode_unassigned qs nodeID t n hn hc hrid
  · intro qs nodeID t n r hn hc hrid hr hsvc
    exact AllocateNode_in_service qs nodeID t n r hn hc hrid hr hsvc
  · intro qs nodeID t n r hn hc hrid hr hsvc hfull
    exact AllocateNode_full qs nodeID t n r hn hc hrid hr hsvc hfull
  · intro qs nodeID t n r hn hc hrid hr hsvc hfull hw
    exact AllocateNode_not_waiting qs nodeID t n r hn hc hrid hr hsvc hfull hw
  · intro qs qs1 nodeID t h
    obtain ⟨n, r, hn, -, -, -, -, -, -, hq1⟩ := AllocateNode_success qs nodeID t qs1 h
    subst hq1
    exact ⟨n, hn, alookup_aset_self _ _ _⟩
  · exact ⟨by decide, by decide, by decide, by decide, by decide⟩

/-- Witness for C5: allocating an unknown node in the startup state yields
the NotFound error. -/
theorem C5_witness : qsW0.AllocateNode "missing" 0 = (qsW0, some "node not found") :=
  C5_allocate_error_taxonomy.1 qsW0 "missing" 0 rfl

/-- C9: a successful `AllocateNode` changes only the node's current
resource — the node leaves the waiting queue by deletion of its single
occurrence (the remaining waiting nodes keep their relative order: the new
waiting queue is a sublist of the old) and is appended at the tail of the
service queue — and appends exactly one `moved_to_service_queue` entry to
that node's log; the node's `ResourceID` and `Completed` flag, every other
node, and every other resource are unchanged. -/
theorem C9_allocate_success_frame (qs : QueueService) (nodeID : String) (t : Int)
    (qs1 : QueueService) (h : qs.AllocateNode nodeID t = (qs1, none)) :
    ∃ n r, alookup qs.nodes nodeID = some n ∧
      alookup qs.resources n.ResourceID = some r ∧ nodeID ∈ r.WaitingQueue ∧
      (∀ rid, rid ≠ n.ResourceID → alookup qs1.resources rid = alookup qs.resources rid) ∧
      (∀ x, x ≠ nodeID → alookup qs1.nodes x = alookup qs.nodes x) ∧
      (∃ r1, alookup qs1.resources n.ResourceID = some r1 ∧
        r1.WaitingQueue = r.WaitingQueue.erase nodeID ∧
        r1.WaitingQueue.Sublist r.WaitingQueue ∧
        r1.Nodes = r.Nodes ++ [nodeID] ∧ r1.ID = r.ID ∧ r1.Capacity = r.Capacity) ∧
      (∃ n1, alookup qs1.nodes nodeID = some n1 ∧ n1.ResourceID = n.ResourceID ∧
        n1.Completed = n.Completed ∧ n1.ID = n.ID ∧ n1.CreatedAt = n.CreatedAt ∧
        n1.Entity = n.Entity ∧ n1.resourceIDs = n.resourceIDs ∧
        n1.Log = n.Log ++ [{ Action := "moved_to_service_queue", ResourceID := n.ResourceID,
                             Timestamp := t }]) := by
  obtain ⟨n, r, hn, hc, hrid, hr, hsvc, hw, hcap, hq1⟩ := AllocateNode_success qs nodeID t qs1 h
  subst hq1
  refine ⟨n, r, hn, hr, hw, ?_, ?_, ?_, ?_⟩
  · intro rid hne
    exact alookup_aset_ne _ _ _ _ hne
  · intro x hx
    exact alookup_aset_ne _ _ _ _ hx
  · refine ⟨_, alookup_aset_self _ _ _, rfl, ?_, rfl, rfl, rfl⟩
    exact List.erase_sublist _ _
  · exact ⟨_, alookup_aset_self _ _ _, rfl, rfl, rfl, rfl, rfl, rfl, rfl⟩

/-- Witness for C9: the successful allocation of `a` out of `qsS1`. -/
theorem C9_witness :
    ∃ n r, alookup qsS1.nodes "a" = some n ∧
      alookup qsS1.resources n.ResourceID = some r ∧ "a" ∈ r.WaitingQueue ∧
      (∀ rid, rid ≠ n.ResourceID → alookup qsS2.resources rid = alookup qsS1.resources rid) ∧
      (∀ x, x ≠ "a" → alookup qsS2.nodes x = alookup qsS1.nodes x) ∧
      (∃ r1, alookup qsS2.resources n.ResourceID = some r1 ∧
        r1.WaitingQueue = r.WaitingQueue.erase "a" ∧
        r1.WaitingQueue.Sublist r.WaitingQueue ∧
        r1.Nodes = r.Nodes ++ ["a"] ∧ r1.ID = r.ID ∧ r1.Capacity = r.Capacity) ∧
      (∃ n1, alookup qsS2.nodes "a" = some n1 ∧ n1.ResourceID = n.ResourceID ∧
        n1.Completed = n.Completed ∧ n1.ID = n.ID ∧ n1.CreatedAt = n.CreatedAt ∧
        n1.Entity = n.Entity ∧ n1.resourceIDs = n.resourceIDs ∧
        n1.Log = n.Log ++ [{ Action := "moved_to_service_queue", ResourceID := n.ResourceID,
                             Timestamp := 5 }]) :=
  C9_allocate_success_frame qsS1 "a" 5 qsS2 (by decide)

/-- C10: `CompleteNode` succeeds on every registered non-completed node —
also when its `ResourceID` is empty (never assigned or unassigned) — and the
appended `completed` log entry records the `ResourceID` the node held at the
moment of completion (written before the field is cleared); afterwards the
node is completed and unassigned. -/
theorem C10_complete_logs_resource_at_completion (qs : QueueService) (nodeID : String)
    (t : Int) (n : Node) (hn : alookup qs.nodes nodeID = some n)
    (hc : n.Completed = false) :
    (qs.CompleteNode nodeID t).2 = none ∧
    ∃ n2, alookup (qs.CompleteNode nodeID t).1.nodes nodeID = some n2 ∧
      n2.Completed = true ∧ n2.ResourceID = "" ∧
      n2.Log = n.Log ++ [{ Action := "completed", ResourceID := n.ResourceID,
                           Timestamp := t }] :=
  CompleteNode_success qs nodeID t n hn hc

/-- Witness for C10: completing the never-assigned node `u` right after its
creation; the recorded resource id is the empty string. -/
theorem C10_witness :
    ((qsW0.CreateNode "u" "e9" 7).1.CompleteNode "u" 8).2 = none ∧
    ∃ n2, alookup ((qsW0.CreateNode "u" "e9" 7).1.CompleteNode "u" 8).1.nodes "u" = some n2 ∧
      n2.Completed = true ∧ n2.ResourceID = "" ∧
      n2.Log = (newNode "u" "e9" 7).Log ++
        [{ Action := "completed", ResourceID := (newNode "u" "e9" 7).ResourceID,
           Timestamp := 8 }] :=
  C10_complete_logs_resource_at_completion (qsW0.CreateNode "u" "e9" 7).1 "u" 8
    (newNode "u" "e9" 7) (by decide) (by decide)

/-- C6: for timestamps `t0 < t1 < t2 < t3` and any `now ≥ t3`,
`computeNodeMetrics` on a completed node created at `t0` with events
`moved_to_waiting_queue(R, t1)`, `moved_to_service_queue(R, t2)`,
`completed(t3)` yields exactly one waiting segment `{R, t1, t2, t2 - t1}`
and a total time in system of `t3 - t0`. -/
theorem C6_metrics_round_trip (nid ename R : String) (t0 t1 t2 t3 now : Int)
    (h01 : t0 < t1) (h12 : t1 < t2) (h23 : t2 < t3) (h3n : t3 ≤ now) :
    computeNodeMetrics now
      { ID := nid, Entity := ename, CreatedAt := t0, Completed := true }
      [ { Action := "moved_to_waiting_queue", ResourceID := R, TS := t1 },
        { Action := "moved_to_service_queue", ResourceID := R, TS := t2 },
        { Action := "completed", ResourceID := "", TS := t3 } ] =
    { ID := nid, EntityName := ename, CreatedAt := t0, Completed := true,
      TotalTimeInSystemMS := t3 - t0,
      WaitingSegments := [ { ResourceID := R, StartTS := t1, EndTS := t2,
                             DurationMS := t2 - t1 } ] } := by
  have hs1 : ¬ (t2 < t1) := by omega
  have hs2 : ¬ (t3 < t2) := by omega
  have hd : ¬ (t2 - t1 < 0) := by omega
  have ht : ¬ (t3 - t0 < 0) := by omega
  simp [computeNodeMetrics, stableSortByKey, insertByKey, processEvent, closeOpen,
    hs1, hs2, hd, ht]

/-- Witness for C6 at `t0, t1, t2, t3, now = 0, 1, 2, 3, 5`. -/
theorem C6_witness :
    computeNodeMetrics 5
      { ID := "n1", Entity := "e", CreatedAt := 0, Completed := true }
      [ { Action := "moved_to_waiting_queue", ResourceID := "R", TS := 1 },
        { Action := "moved_to_service_queue", ResourceID := "R", TS := 2 },
        { Action := "completed", ResourceID := "", TS := 3 } ] =
    { ID := "n1", EntityName := "e", CreatedAt := 0, Completed := true,
      TotalTimeInSystemMS := 3 - 0,
      WaitingSegments := [ { ResourceID := "R", StartTS := 1, EndTS := 2,
                             DurationMS := 2 - 1 } ] } :=
  C6_metrics_round_trip "n1" "e" "R" 0 1 2 3 5 (by decide) (by decide) (by decide) (by decide)

/-- C7: restoring nodes `A` (waiting, key 20s), `B` (waiting, key 10s) and
`C` (no state entry — defaults to waiting keyed by its 5-minute creation
time) assigned to resource `X` rebuilds `X`'s waiting queue as `[B, A, C]`
(ascending by key), with `C`'s kind/key defaulted and nothing placed in the
service queue. -/
theorem C7_restore_waiting_order :
    restoredWaiting restoreStates [pnA, pnB, pnC] "X" = ["B", "A", "C"] ∧
    restoreKindAndKey restoreStates pnC = (QueueKind.waiting, 300000) ∧
    restoredService restoreStates [pnA, pnB, pnC] "X" = [] := by
  decide

/-- C8 counterexample: on the over-capacity resource `rOver`, `IsFull`
returns `true` although the service queue length (2) differs from the
capacity (1) — so "is_full() is true exactly when |service| = capacity" is
false for this Resource state. -/
theorem C8_counterexample :
    rOver.IsFull = true ∧ ((rOver.Nodes.length : Int) = rOver.Capacity → False) := by
  decide

/-- C8 (amended): for every Resource state, `GetAvailableCapacity` returns
`capacity - |service|` and `IsFull` returns `true` exactly when `|service|`
is at least (rather than equal to) the capacity; both results are unchanged
under any replacement of the waiting queue. -/
theorem C8_capacity_getters (r : Resource) (w : List String) :
    r.GetAvailableCapacity = r.Capacity - (r.Nodes.length : Int) ∧
    (r.IsFull = true ↔ (r.Nodes.length : Int) ≥ r.Capacity) ∧
    Resource.GetAvailableCapacity { r with WaitingQueue := w } = r.GetAvailableCapacity ∧
    Resource.IsFull { r with WaitingQueue := w } = r.IsFull := by
  refine ⟨rfl, ?_, rfl, rfl⟩
  simp [Resource.IsFull]
